import Mathlib

/-!
Shallow embedding of the Colorado HQT raster modeling engine
(`cohqt.py`, `hqtlib.py`, and the masked mule-deer combination in
`CreditTool_2.py` / `DebitTool_2.py`).

A raster (Grid Surface) is embedded as a function from an abstract cell
index type `ι` to a numeric value.  Cellwise arcpy raster algebra becomes
pointwise arithmetic on such functions.  NoData is embedded as `Option`:
a cell holding `none` is NoData.  arcpy's `Con(IsNull(x), v, x)` becomes
`Option.getD` with default `v`.  Components whose arithmetic never leaves
the rationals are embedded over `ℚ` (idealized exact arithmetic for the
floating-point code); the sigmoidal distance decay uses `Real.exp` and is
embedded over `ℝ`.
-/

namespace CoHQT

/-- One attribute row of the debit project area feature class: the fields
`Acres`, the pre-project value field, the post-project value field and the
output field written by `calcDebits` (`cohqt.py`). -/
structure DebitRow where
  acres : ℚ
  preValue : ℚ
  postValue : ℚ
  outValue : ℚ
  deriving DecidableEq, Repr

/-- The log line emitted by `calcDebits` for each zone row via
`arcpy.AddMessage("Functional Acre difference from {} to {} is equal to
{}".format(pre_field, post_field, row[3]))`. -/
def debitMessage (preField postField : String) (delta : ℚ) : String :=
  "Functional Acre difference from " ++ preField ++ " to " ++ postField
    ++ " is equal to " ++ toString delta

/-- `calcDebits` (`cohqt.py` lines 838-856): for every row of the debit
project area table, writes `row[3] = row[0] * (row[1] - row[2])`, i.e.
`out = Acres * (pre - post)`, and emits one log message per row.  The
embedding returns the updated rows together with the emitted messages. -/
def calcDebits (rows : List DebitRow) (preField postField : String) :
    List DebitRow × List String :=
  (rows.map fun r => { r with outValue := r.acres * (r.preValue - r.postValue) },
   rows.map fun r =>
     debitMessage preField postField (r.acres * (r.preValue - r.postValue)))

/-- `Con(IsNull(in_value_raster), 0, in_value_raster)` applied cellwise in
`CalcZonalStats` (`hqtlib.py` line 667): NoData cells become 0. -/
def con0 (o : Option ℚ) : ℚ := o.getD 0

/-- `CalcZonalStats` (`hqtlib.py` lines 655-681) restricted to one zone:
the zone's footprint is the list of value-raster cells it covers (after
the nearest-neighbour resample, which replicates native cells and leaves
the cell multiset's proportions unchanged).  NoData is first converted to
0 cellwise, then `ZonalStatisticsAsTable` computes the arithmetic MEAN of
the (now NoData-free) cells; a zone covering no cell produces no table row,
embedded as `none`. -/
def CalcZonalStats (zone : List (Option ℚ)) : Option ℚ :=
  if zone = [] then none
  else some ((zone.map con0).sum / zone.length)

/-- Minimum of a list of cell values, as computed by
`CellStatistics(subtypeRasters, "MINIMUM")`; only ever applied to a
non-empty list (the `len(subtypeRasters) > 0` guard in
`CalcAnthroDisturbance`), the `[]` case is junk. -/
def minList {α : Type} [LinearOrderedField α] : List α → α
  | [] => 0
  | x :: xs => xs.foldl min x

/-- `calcTypeDisturbance` (`cohqt.py` lines 344-353): cellwise
`CellStatistics(subtypeRasters, "MINIMUM")` divided by 100. -/
def calcTypeDisturbance {ι α : Type} [LinearOrderedField α]
    (subtypeRasters : List (ι → α)) : ι → α :=
  fun c => minList (subtypeRasters.map fun r => r c) / 100

/-- `multiplyRasters` (`cohqt.py` lines 355-372): for term `"Pre"` or
`"Post"`, appends the agriculture index and the Lakes index to the Type
raster list when `dist_field == "GrSG_Dist"`, otherwise only the Lakes
index, and returns the cellwise product (`np.prod`); for
`"LekDisturbanceModifier"` it appends the empty (extent) raster instead.
Any other term leaves `anthroRaster` unassigned in the Python source,
embedded as `none`. -/
def multiplyRasters {ι α : Type} [LinearOrderedField α]
    (rasterList : List (ι → α)) (anthroDisturbanceType distField : String)
    (agricultureIndex lakes emptyRaster : ι → α) : Option (ι → α) :=
  if anthroDisturbanceType = "Pre" ∨ anthroDisturbanceType = "Post" then
    some (fun c =>
      (((if distField = "GrSG_Dist" then rasterList ++ [agricultureIndex, lakes]
         else rasterList ++ [lakes]).map fun r => r c)).prod)
  else if anthroDisturbanceType = "LekDisturbanceModifier" then
    some (fun c => ((rasterList ++ [emptyRaster]).map fun r => r c).prod)
  else
    none

/-- `applyLekUpliftModifierPre` (`cohqt.py` lines 554-563):
`Con(LekPresenceRaster, preSeasonalHabitat, LekPresenceRaster, "VALUE = 0")`
— where the lek presence raster is 0 the pre seasonal habitat passes
through, elsewhere the cell takes the lek presence raster's own value. -/
def applyLekUpliftModifierPre {ι : Type} (preSeasonalHabitat lekPresence : ι → ℚ) :
    ι → ℚ :=
  fun c => if lekPresence c = 0 then preSeasonalHabitat c else lekPresence c

/-- `applyLekUpliftModifierPost` (`cohqt.py` lines 566-577):
`Con(LekPresenceRaster, postSeasonalHabitat, LekDisturbanceModifier,
"VALUE = 0")` — where the lek presence raster is 0 the post seasonal
habitat passes through, elsewhere the cell takes the lek
disturbance/uplift modifier's value. -/
def applyLekUpliftModifierPost {ι : Type}
    (postSeasonalHabitat lekPresence lekDisturbanceModifier : ι → ℚ) : ι → ℚ :=
  fun c => if lekPresence c = 0 then postSeasonalHabitat c
           else lekDisturbanceModifier c

/-- `anthro_open_only = Con(BWMD_Open == 1, anthro_open, 1)`
(`CreditTool_2.py` line 627, `DebitTool_2.py` line 558): the open-context
disturbance surface forced to 1 at every cell outside the open-habitat
mask. -/
def anthroOpenOnly {ι : Type} (anthroOpen bwmdOpen : ι → ℚ) : ι → ℚ :=
  fun c => if bwmdOpen c = 1 then anthroOpen c else 1

/-- `Current_Anthro_Disturbance = Con(anthro_open_only < anthro_pj,
anthro_open_only, anthro_pj)` (`CreditTool_2.py` lines 631-632,
`DebitTool_2.py` lines 562-563): the combined mule-deer anthropogenic
disturbance surface. -/
def currentAnthroDisturbanceMD {ι : Type}
    (anthroPJ anthroOpen bwmdOpen : ι → ℚ) : ι → ℚ :=
  fun c =>
    if anthroOpenOnly anthroOpen bwmdOpen c < anthroPJ c then
      anthroOpenOnly anthroOpen bwmdOpen c
    else anthroPJ c

/-- The sigmoidal decay factor in `calcSubtypeDisturbance` (`cohqt.py`
line 325): `1/(1 + Exp(((outEucDist / (distance/2)) - 1) * 5))`. -/
noncomputable def sigmoid (d t : ℝ) : ℝ :=
  1 / (1 + Real.exp ((t / (d / 2) - 1) * 5))

/-- The decayed cell value `tmp1` of `calcSubtypeDisturbance` (`cohqt.py`
line 325): `100 - sigmoid * weight`. -/
noncomputable def decay (d w t : ℝ) : ℝ := 100 - w * sigmoid d t

/-- Contract of the external `EucDistance(AnthroFeatures, distance,
cellSize)` operator at a cell whose true Euclidean distance to the nearest
presence cell is `t`: the distance itself within the `distance` cap, NoData
(`none`) beyond the analysis extent of the transform. -/
noncomputable def eucDistance (t d : ℝ) : Option ℝ :=
  if t ≤ d then some t else none

/-- The `distance > 0` branch of `calcSubtypeDisturbance` at one cell:
`tmp2 = Con(IsNull(tmp1), 100, tmp1)` (`cohqt.py` line 328) — the decayed
value where the distance transform produced data, 100 where it returned
NoData. -/
noncomputable def subtypeCellValue (d w t : ℝ) : ℝ :=
  ((eucDistance t d).map (decay d w)).getD 100

/-- `calcSubtypeDisturbance` (`cohqt.py` lines 314-342): for
`distance > 0` the sigmoidal decay surface with NoData resolved to 100;
else for `weight > 0` the direct-effect surface
`100 - Con(IsNull(AnthroFeatures), 0, AnthroFeatures) * weight`; else no
surface (`subtypeRaster = None`).  `trueDist c` is the cell's Euclidean
distance to the nearest presence cell and `presence c` the rasterized
presence value of the subtype's features (NoData off the features). -/
noncomputable def calcSubtypeDisturbance {ι : Type} (distance weight : ℝ)
    (trueDist : ι → ℝ) (presence : ι → Option ℝ) : Option (ι → ℝ) :=
  if 0 < distance then
    some (fun c => subtypeCellValue distance weight (trueDist c))
  else if 0 < weight then
    some (fun c => 100 - (presence c).getD 0 * weight)
  else
    none

/-- The per-Type step of the driver loop of `CalcAnthroDisturbance`
(`cohqt.py` lines 461-468): subtype results that are `None` are not
appended to `subtypeRasters`, and a Type whose `subtypeRasters` list stays
empty produces no Type raster at all (the `len(subtypeRasters) > 0`
guard). -/
noncomputable def buildTypeRaster {ι : Type}
    (subtypeResults : List (Option (ι → ℝ))) : Option (ι → ℝ) :=
  match subtypeResults.filterMap id with
  | [] => none
  | r :: rs => some (calcTypeDisturbance (r :: rs))

/-- The full driver loop of `CalcAnthroDisturbance` over unique Types
(`cohqt.py` lines 379-468): `rasterList` collects exactly the Type rasters
of Types with at least one contributing subtype. -/
noncomputable def buildRasterList {ι : Type}
    (typeResults : List (List (Option (ι → ℝ)))) : List (ι → ℝ) :=
  typeResults.filterMap buildTypeRaster

/-! Helper lemmas about folded minima, shared by the Type Aggregator
results. -/

theorem foldl_min_mem {α : Type} [LinearOrder α] :
    ∀ (xs : List α) (x : α), xs.foldl min x ∈ x :: xs
  | [], _ => by simp
  | y :: ys, x => by
      have h := foldl_min_mem ys (min x y)
      simp only [List.foldl_cons]
      rcases List.mem_cons.mp h with h1 | h2
      · rcases min_choice x y with hx | hy
        · rw [h1, hx]; exact List.mem_cons_self _ _
        · rw [h1, hy]; exact List.mem_cons_of_mem _ (List.mem_cons_self _ _)
      · exact List.mem_cons_of_mem _ (List.mem_cons_of_mem _ h2)

theorem foldl_min_le {α : Type} [LinearOrder α] :
    ∀ (xs : List α) (x y : α), y ∈ x :: xs → xs.foldl min x ≤ y
  | [], x, y, h => by
      simp only [List.not_mem_nil, List.mem_cons, or_false] at h
      simp [h]
  | z :: zs, x, y, h => by
      simp only [List.foldl_cons]
      have hself := foldl_min_le zs (min x z) (min x z) (List.mem_cons_self _ _)
      rcases List.mem_cons.mp h with h1 | h2
      · rw [h1]; exact le_trans hself (min_le_left _ _)
      · rcases List.mem_cons.mp h2 with h3 | h4
        · rw [h3]; exact le_trans hself (min_le_right _ _)
        · exact foldl_min_le zs (min x z) y (List.mem_cons_of_mem _ h4)

theorem minList_mem {α : Type} [LinearOrderedField α] (l : List α) (h : l ≠ []) :
    minList l ∈ l := by
  cases l with
  | nil => exact absurd rfl h
  | cons x xs => exact foldl_min_mem xs x

theorem minList_le {α : Type} [LinearOrderedField α] (l : List α) (y : α)
    (hy : y ∈ l) : minList l ≤ y := by
  cases l with
  | nil => exact absurd hy (List.not_mem_nil y)
  | cons x xs => exact foldl_min_le xs x y hy

/-- Claim C2: the Zonal Aggregator `CalcZonalStats` replaces every NoData
cell of the value surface by 0 before computing the zonal mean, so NoData
cells are never excluded from the mean (the mean's denominator counts every
cell of the zone's footprint); in particular a zone half-covered by NoData
and half by value 100 yields mean 50, not 100. -/
theorem claim2_zonal_nodata_as_zero :
    (∀ zone : List (Option ℚ), zone ≠ [] →
       ∃ m, CalcZonalStats zone = some m ∧
         m * zone.length = (zone.map con0).sum) ∧
    ∀ n : ℕ, 0 < n →
      CalcZonalStats (List.replicate n none ++ List.replicate n (some 100))
        = some 50 := by
  constructor
  · intro zone hz
    refine ⟨(zone.map con0).sum / zone.length, ?_, ?_⟩
    · rw [CalcZonalStats, if_neg hz]
    · have hlen : (zone.length : ℚ) ≠ 0 :=
        Nat.cast_ne_zero.mpr (fun h => hz (List.length_eq_zero.mp h))
      exact div_mul_cancel₀ _ hlen
  · intro n hn
    have hne : (List.replicate n (none : Option ℚ)
        ++ List.replicate n (some 100)) ≠ [] := by
      intro h
      rcases List.append_eq_nil.mp h with ⟨h1, _⟩
      rw [List.replicate_eq_nil_iff] at h1
      omega
    rw [CalcZonalStats, if_neg hne]
    have h1 : ((List.replicate n (none : Option ℚ)
        ++ List.replicate n (some 100)).map con0).sum = (n : ℚ) * 100 := by
      simp [con0, List.sum_replicate, nsmul_eq_mul]
    have h2 : (List.replicate n (none : Option ℚ)
        ++ List.replicate n (some 100)).length = n + n := by
      simp
    have hn' : (0 : ℚ) < n := Nat.cast_pos.mpr hn
    rw [h1, h2]
    push_cast
    congr 1
    rw [div_eq_iff (ne_of_gt (by linarith : (0 : ℚ) < (n : ℚ) + (n : ℚ)))]
    ring

theorem claim2_witness :
    0 < 1 ∧
    CalcZonalStats
        (List.replicate 1 none ++ List.replicate 1 (some (100 : ℚ)))
      = some 50 :=
  ⟨one_pos, claim2_zonal_nodata_as_zero.2 1 one_pos⟩

/-- Claim C3: for every zone row processed by `calcDebits`, the value
written to the output field equals `Acres * (pre - post)`; for
`Acres = 10, pre = 0.6, post = 0.4` the output is exactly `2`, and one
human-readable log line reporting the computed delta is emitted per
zone. -/
theorem claim3_credit_debit_calculator (rows : List DebitRow)
    (preField postField : String) :
    List.Forall₂
      (fun r s => s.outValue = r.acres * (r.preValue - r.postValue) ∧
        s.acres = r.acres)
      rows (calcDebits rows preField postField).1 ∧
    (calcDebits rows preField postField).2.length = rows.length ∧
    (calcDebits [⟨10, 6/10, 4/10, 0⟩] preField postField).1
      = [⟨10, 6/10, 4/10, 2⟩] ∧
    (calcDebits [⟨10, 6/10, 4/10, 0⟩] preField postField).2
      = [debitMessage preField postField 2] := by
  refine ⟨?_, ?_, ?_, ?_⟩
  · induction rows with
    | nil => simp [calcDebits]
    | cons r rs ih =>
        simp only [calcDebits, List.map_cons] at ih ⊢
        exact List.Forall₂.cons ⟨rfl, rfl⟩ ih
  · simp [calcDebits]
  · simp only [calcDebits, List.map_cons, List.map_nil]
    norm_num
  · simp only [calcDebits, List.map_cons, List.map_nil]
    norm_num

/-- Claim C4: for every non-empty list of subtype surfaces sharing one
Type, `calcTypeDisturbance` produces at every cell the minimum of the
subtype surfaces at that cell divided by 100 (a value attained by some
surface of the list and a lower bound of all of them); for a
single-subtype list the output equals that subtype's surface divided by
100. -/
theorem claim4_type_aggregator_min {ι α : Type} [LinearOrderedField α]
    (rasters : List (ι → α)) (c : ι) (hne : rasters ≠ []) :
    ((∃ r ∈ rasters, calcTypeDisturbance rasters c = r c / 100) ∧
      ∀ r ∈ rasters, calcTypeDisturbance rasters c ≤ r c / 100) ∧
    ∀ r : ι → α, calcTypeDisturbance [r] c = r c / 100 := by
  refine ⟨⟨?_, ?_⟩, ?_⟩
  · have hmem := minList_mem (rasters.map fun r => r c)
      (by simpa using hne)
    rcases List.mem_map.mp hmem with ⟨r, hr, heq⟩
    refine ⟨r, hr, ?_⟩
    simp only [calcTypeDisturbance]
    rw [← heq]
  · intro r hr
    have hle := minList_le (rasters.map fun r => r c) (r c)
      (List.mem_map_of_mem _ hr)
    exact (div_le_div_iff_of_pos_right (by norm_num)).mpr hle
  · intro r
    simp [calcTypeDisturbance, minList]

theorem claim4_witness :
    ([fun _ : Fin 1 => (5 : ℚ)] ≠ ([] : List (Fin 1 → ℚ))) ∧
    calcTypeDisturbance [fun _ : Fin 1 => (5 : ℚ)] 0
      = (fun _ : Fin 1 => (5 : ℚ)) 0 / 100 :=
  ⟨by simp,
   (claim4_type_aggregator_min [fun _ : Fin 1 => (5 : ℚ)] 0 (by simp)).2 _⟩

/-- Claim C7: on a binary lek-presence surface, `applyLekUpliftModifierPre`
returns, wherever lek-presence = 1, the maximum-quality constant taken from
the lek-presence layer's own encoding (the value 1), and elsewhere the
unchanged pre-project seasonal habitat value; `applyLekUpliftModifierPost`
returns, wherever lek-presence = 1, the lek uplift/disturbance modifier's
cell value, and elsewhere the unchanged post-project seasonal value. -/
theorem claim7_lek_uplift_override {ι : Type} (pre post lek m : ι → ℚ)
    (hbin : ∀ c, lek c = 0 ∨ lek c = 1) :
    ∀ c,
      (lek c = 1 →
        applyLekUpliftModifierPre pre lek c = 1 ∧
        applyLekUpliftModifierPost post lek m c = m c) ∧
      (lek c ≠ 1 →
        applyLekUpliftModifierPre pre lek c = pre c ∧
        applyLekUpliftModifierPost post lek m c = post c) := by
  intro c
  constructor
  · intro h1
    have h0 : ¬ lek c = 0 := by rw [h1]; norm_num
    simp [applyLekUpliftModifierPre, applyLekUpliftModifierPost, h0, h1]
  · intro hne
    have h0 : lek c = 0 := (hbin c).resolve_right hne
    simp [applyLekUpliftModifierPre, applyLekUpliftModifierPost, h0]

theorem claim7_witness :
    (∀ c : Fin 2,
        (if c = 0 then (0 : ℚ) else 1) = 0 ∨
        (if c = 0 then (0 : ℚ) else 1) = 1) ∧
    applyLekUpliftModifierPre (fun _ => (7 : ℚ))
        (fun c : Fin 2 => if c = 0 then 0 else 1) 1 = 1 ∧
    applyLekUpliftModifierPost (fun _ => (8 : ℚ))
        (fun c : Fin 2 => if c = 0 then 0 else 1) (fun _ => (9 : ℚ)) 1
      = (fun _ : Fin 2 => (9 : ℚ)) 1 ∧
    applyLekUpliftModifierPre (fun _ => (7 : ℚ))
        (fun c : Fin 2 => if c = 0 then 0 else 1) 0
      = (fun _ : Fin 2 => (7 : ℚ)) 0 :=
  ⟨by decide,
   ((claim7_lek_uplift_override (fun _ => 7) (fun _ => 8)
       (fun c : Fin 2 => if c = 0 then 0 else 1) (fun _ => 9)
       (by decide) 1).1 (by decide)).1,
   ((claim7_lek_uplift_override (fun _ => 7) (fun _ => 8)
       (fun c : Fin 2 => if c = 0 then 0 else 1) (fun _ => 9)
       (by decide) 1).1 (by decide)).2,
   ((claim7_lek_uplift_override (fun _ => 7) (fun _ => 8)
       (fun c : Fin 2 => if c = 0 then 0 else 1) (fun _ => 9)
       (by decide) 0).2 (by decide)).1⟩

/-- Claim C5: for term `"Pre"` or `"Post"`, `multiplyRasters` returns at
every cell the product of all Type surfaces and all applicable background
indices at that cell; the result is invariant under permutation of the
input surface list, and for an empty Type surface list it still equals the
product of the background indices alone (never an all-1 surface). -/
theorem claim5_compositor_product {ι α : Type} [LinearOrderedField α]
    (adt df : String) (ag lakes e : ι → α)
    (hadt : adt = "Pre" ∨ adt = "Post") :
    (∀ l₁ l₂ : List (ι → α), l₁.Perm l₂ →
       multiplyRasters l₁ adt df ag lakes e
         = multiplyRasters l₂ adt df ag lakes e) ∧
    (∀ l : List (ι → α),
       ∃ f, multiplyRasters l adt df ag lakes e = some f ∧
         ∀ c, f c = (l.map fun r => r c).prod *
           (if df = "GrSG_Dist" then ag c * lakes c else lakes c)) ∧
    multiplyRasters ([] : List (ι → α)) adt df ag lakes e
      = some fun c => if df = "GrSG_Dist" then ag c * lakes c
                      else lakes c := by
  have key : ∀ l : List (ι → α),
      multiplyRasters l adt df ag lakes e
        = some fun c => (l.map fun r => r c).prod *
            (if df = "GrSG_Dist" then ag c * lakes c else lakes c) := by
    intro l
    simp only [multiplyRasters, if_pos hadt]
    congr 1
    funext c
    by_cases hdf : df = "GrSG_Dist"
    · simp [hdf, List.prod_append, mul_assoc]
    · simp [hdf, List.prod_append]
  refine ⟨?_, fun l => ⟨_, key l, fun c => rfl⟩, ?_⟩
  · intro l₁ l₂ hperm
    rw [key l₁, key l₂]
    congr 1
    funext c
    rw [((hperm.map fun r => r c).prod_eq : _)]
  · rw [key []]
    congr 1
    funext c
    simp

theorem claim5_witness :
    (("Pre" : String) = "Pre" ∨ ("Pre" : String) = "Post") ∧
    multiplyRasters ([] : List (Fin 1 → ℚ)) "Pre" "GrSG_Dist"
        (fun _ => 2) (fun _ => 3) (fun _ => 1)
      = some fun c =>
          if ("GrSG_Dist" : String) = "GrSG_Dist" then
            (fun _ : Fin 1 => (2 : ℚ)) c * (fun _ : Fin 1 => (3 : ℚ)) c
          else (fun _ : Fin 1 => (3 : ℚ)) c :=
  ⟨Or.inl rfl,
   (claim5_compositor_product "Pre" "GrSG_Dist"
      (fun _ => 2) (fun _ => 3) (fun _ => 1) (Or.inl rfl)).2.2⟩

/-- Claim C10: in `multiplyRasters` for the Pre and Post terms, the
agriculture background index is multiplied into the composite if and only
if the distance-field argument is exactly `"GrSG_Dist"`; for every other
distance field only the Lakes index is applied, so the result does not
depend on the agriculture index at all. -/
theorem claim10_ag_index_only_grsg {ι α : Type} [LinearOrderedField α]
    (l : List (ι → α)) (adt df : String) (ag lakes e : ι → α)
    (hadt : adt = "Pre" ∨ adt = "Post") :
    (df = "GrSG_Dist" →
       multiplyRasters l adt df ag lakes e
         = some fun c => (l.map fun r => r c).prod * (ag c * lakes c)) ∧
    (df ≠ "GrSG_Dist" →
       multiplyRasters l adt df ag lakes e
         = (some fun c => (l.map fun r => r c).prod * lakes c) ∧
       ∀ ag2 : ι → α,
         multiplyRasters l adt df ag lakes e
           = multiplyRasters l adt df ag2 lakes e) := by
  constructor
  · intro hdf
    simp only [multiplyRasters, if_pos hadt, if_pos hdf]
    congr 1
    funext c
    simp [List.prod_append, mul_assoc]
  · intro hdf
    constructor
    · simp only [multiplyRasters, if_pos hadt, if_neg hdf]
      congr 1
      funext c
      simp [List.prod_append]
    · intro ag2
      simp only [multiplyRasters, if_pos hadt, if_neg hdf]

theorem claim10_witness :
    (("Pre" : String) = "Pre" ∨ ("Pre" : String) = "Post") ∧
    ("MDP_Dist" : String) ≠ "GrSG_Dist" ∧
    multiplyRasters ([] : List (Fin 1 → ℚ)) "Pre" "MDP_Dist"
        (fun _ => 5) (fun _ => 3) (fun _ => 1)
      = some fun c =>
          (([] : List (Fin 1 → ℚ)).map fun r => r c).prod *
            (fun _ : Fin 1 => (3 : ℚ)) c :=
  ⟨Or.inl rfl, by decide,
   ((claim10_ag_index_only_grsg [] "Pre" "MDP_Dist"
       (fun _ => 5) (fun _ => 3) (fun _ => 1) (Or.inl rfl)).2 (by decide)).1⟩

/-- Claim C8: in the masked mule-deer variant, the combined anthropogenic
disturbance surface equals, at every cell, the minimum of the PJ-context
disturbance surface and the open-context disturbance surface forced to 1
at every cell outside the open-habitat mask — the more severe (lower) of
the two context surfaces wins per cell. -/
theorem claim8_muledeer_min_combine {ι : Type}
    (anthroPJ anthroOpen bwmdOpen : ι → ℚ) (c : ι) :
    currentAnthroDisturbanceMD anthroPJ anthroOpen bwmdOpen c
      = min (anthroPJ c) (if bwmdOpen c = 1 then anthroOpen c else 1) := by
  unfold currentAnthroDisturbanceMD anthroOpenOnly
  rcases lt_or_le (if bwmdOpen c = 1 then anthroOpen c else 1) (anthroPJ c)
    with h | h
  · rw [if_pos h, min_eq_right (le_of_lt h)]
  · rw [if_neg (not_lt.mpr h), min_eq_left h]

/-! Helper lemmas about the sigmoidal decay. -/

theorem one_add_exp_pos (x : ℝ) : 0 < 1 + Real.exp x := by positivity

theorem sigmoid_pos (d t : ℝ) : 0 < sigmoid d t := by
  unfold sigmoid
  positivity

theorem sigmoid_lt_one (d t : ℝ) : sigmoid d t < 1 := by
  unfold sigmoid
  rw [div_lt_one (one_add_exp_pos _)]
  have := Real.exp_pos ((t / (d / 2) - 1) * 5)
  linarith

theorem sigmoid_antitone (d : ℝ) (hd : 0 < d) {t₁ t₂ : ℝ} (h : t₁ ≤ t₂) :
    sigmoid d t₂ ≤ sigmoid d t₁ := by
  unfold sigmoid
  have hd2 : 0 < d / 2 := half_pos hd
  have harg : (t₁ / (d / 2) - 1) * 5 ≤ (t₂ / (d / 2) - 1) * 5 := by
    have hdiv := (div_le_div_iff_of_pos_right hd2).mpr h
    linarith
  have hexp := Real.exp_le_exp.mpr harg
  exact one_div_le_one_div_of_le (one_add_exp_pos _) (by linarith)

theorem decay_le_100 (d w t : ℝ) (hw : 0 ≤ w) : decay d w t ≤ 100 := by
  unfold decay
  have := mul_nonneg hw (sigmoid_pos d t).le
  linarith

theorem decay_mono (d w : ℝ) (hd : 0 < d) (hw : 0 ≤ w) {t₁ t₂ : ℝ}
    (h : t₁ ≤ t₂) : decay d w t₁ ≤ decay d w t₂ := by
  unfold decay
  have hs := sigmoid_antitone d hd h
  have := mul_le_mul_of_nonneg_left hs hw
  linarith

theorem sigmoid_at_zero (d : ℝ) : sigmoid d 0 = 1 / (1 + Real.exp (-5)) := by
  unfold sigmoid
  rw [zero_div]
  norm_num

theorem sigmoid_at_d (d : ℝ) (hd : 0 < d) :
    sigmoid d d = 1 / (1 + Real.exp 5) := by
  unfold sigmoid
  have h2 : d / (d / 2) = 2 := by
    field_simp
  rw [h2]
  norm_num

theorem exp_five_gt : (143 : ℝ) < Real.exp 5 := by
  have h1 : Real.exp 1 ^ (5 : ℕ) = Real.exp 5 := by
    rw [← Real.exp_nat_mul]
    norm_num
  have h2 : (2.7 : ℝ) < Real.exp 1 :=
    lt_trans (by norm_num) Real.exp_one_gt_d9
  calc (143 : ℝ) < 2.7 ^ (5 : ℕ) := by norm_num
    _ < Real.exp 1 ^ (5 : ℕ) :=
        pow_lt_pow_left₀ h2 (by norm_num) (by norm_num)
    _ = Real.exp 5 := h1

/-- Claim C1 counterexample: with `Distance = 2` and `Weight = 100`, a cell
at Euclidean distance 0 does not get the value `100 - w = 0`: the sigmoid
at distance 0 is `1/(1 + exp(-5)) < 1`, so the cell value stays strictly
positive. -/
theorem claim1_counterexample : subtypeCellValue 2 100 0 ≠ 100 - 100 := by
  have hval : subtypeCellValue 2 100 0 = decay 2 100 0 := by
    unfold subtypeCellValue
    rw [eucDistance, if_pos (by norm_num : (0 : ℝ) ≤ 2)]
    rfl
  rw [hval]
  unfold decay
  have h1 := sigmoid_lt_one 2 0
  intro h
  nlinarith

/-- Claim C1 amended: for every subtype with `Distance = d > 0` and
`Weight = w`, the surface built by `calcSubtypeDisturbance` is the decay
surface `raw = 100 - w * sigmoid(dist)` with
`sigmoid(dist) = 1/(1 + exp(((dist/(d/2)) - 1) * 5))`, and at cells at
Euclidean distance 0 its value is `100 - w * (1/(1 + exp(-5)))`
(about `100 - 0.9933 w`), not exactly `100 - w`. -/
theorem claim1_decay_at_distance_zero {ι : Type} (d w : ℝ)
    (trueDist : ι → ℝ) (presence : ι → Option ℝ) (hd : 0 < d) :
    calcSubtypeDisturbance d w trueDist presence
      = some (fun c => subtypeCellValue d w (trueDist c)) ∧
    subtypeCellValue d w 0 = 100 - w * (1 / (1 + Real.exp (-5))) := by
  constructor
  · rw [calcSubtypeDisturbance, if_pos hd]
  · have h0 : subtypeCellValue d w 0 = decay d w 0 := by
      unfold subtypeCellValue
      rw [eucDistance, if_pos (le_of_lt hd)]
      rfl
    rw [h0, decay, sigmoid_at_zero d]

theorem claim1_witness :
    (0 : ℝ) < 2 ∧
    calcSubtypeDisturbance (ι := Fin 1) 2 50 (fun _ => 0) (fun _ => none)
      = some (fun c => subtypeCellValue 2 50 ((fun _ : Fin 1 => (0 : ℝ)) c)) ∧
    subtypeCellValue 2 50 0 = 100 - 50 * (1 / (1 + Real.exp (-5))) :=
  ⟨by norm_num,
   (claim1_decay_at_distance_zero 2 50 (fun _ : Fin 1 => 0) (fun _ => none)
      (by norm_num)).1,
   (claim1_decay_at_distance_zero 2 50 (fun _ : Fin 1 => 0) (fun _ => none)
      (by norm_num)).2⟩

/-- Claim C6: for every subtype with `Distance = d > 0` and
`0 ≤ Weight ≤ 100`, the subtype disturbance cell value is monotonically
non-decreasing in the Euclidean distance, every cell at distance at least
`d` has a value within epsilon `0.7` of 100 (and at most 100), and cells
where the distance transform returned NoData receive exactly 100. -/
theorem claim6_decay_monotone_epsilon (d w : ℝ) (hd : 0 < d) (hw0 : 0 ≤ w)
    (hw100 : w ≤ 100) :
    (∀ t₁ t₂ : ℝ, t₁ ≤ t₂ →
       subtypeCellValue d w t₁ ≤ subtypeCellValue d w t₂) ∧
    (∀ t : ℝ, d ≤ t →
       100 - 7/10 ≤ subtypeCellValue d w t ∧ subtypeCellValue d w t ≤ 100) ∧
    ∀ t : ℝ, eucDistance t d = none → subtypeCellValue d w t = 100 := by
  have hval_le : ∀ t : ℝ, t ≤ d → subtypeCellValue d w t = decay d w t := by
    intro t ht
    unfold subtypeCellValue
    rw [eucDistance, if_pos ht]
    rfl
  have hval_gt : ∀ t : ℝ, ¬ t ≤ d → subtypeCellValue d w t = 100 := by
    intro t ht
    unfold subtypeCellValue
    rw [eucDistance, if_neg ht]
    rfl
  refine ⟨?_, ?_, ?_⟩
  · intro t₁ t₂ h12
    by_cases h1 : t₁ ≤ d
    · by_cases h2 : t₂ ≤ d
      · rw [hval_le t₁ h1, hval_le t₂ h2]
        exact decay_mono d w hd hw0 h12
      · rw [hval_le t₁ h1, hval_gt t₂ h2]
        exact decay_le_100 d w t₁ hw0
    · have h2 : ¬ t₂ ≤ d := fun h => h1 (le_trans h12 h)
      rw [hval_gt t₁ h1, hval_gt t₂ h2]
  · intro t ht
    by_cases h1 : t ≤ d
    · have htd : t = d := le_antisymm h1 ht
      rw [htd, hval_le d le_rfl]
      constructor
      · rw [decay, sigmoid_at_d d hd]
        have hexp := exp_five_gt
        have hs : 1 / (1 + Real.exp 5) ≤ 1 / 144 :=
          one_div_le_one_div_of_le (by norm_num) (by linarith)
        have hws : w * (1 / (1 + Real.exp 5)) ≤ 100 * (1 / 144) :=
          mul_le_mul hw100 hs (by positivity) (by norm_num)
        linarith
      · exact decay_le_100 d w d hw0
    · rw [hval_gt t h1]
      norm_num
  · intro t hnone
    have h1 : ¬ t ≤ d := by
      intro h
      rw [eucDistance, if_pos h] at hnone
      simp at hnone
    exact hval_gt t h1

theorem claim6_witness :
    ((0 : ℝ) < 2 ∧ (0 : ℝ) ≤ 50 ∧ (50 : ℝ) ≤ 100) ∧
    subtypeCellValue 2 50 0 ≤ subtypeCellValue 2 50 1 ∧
    (100 - 7/10 ≤ subtypeCellValue 2 50 2 ∧ subtypeCellValue 2 50 2 ≤ 100) ∧
    subtypeCellValue 2 50 3 = 100 :=
  ⟨⟨by norm_num, by norm_num, by norm_num⟩,
   (claim6_decay_monotone_epsilon 2 50 (by norm_num) (by norm_num)
      (by norm_num)).1 0 1 (by norm_num),
   (claim6_decay_monotone_epsilon 2 50 (by norm_num) (by norm_num)
      (by norm_num)).2.1 2 le_rfl,
   (claim6_decay_monotone_epsilon 2 50 (by norm_num) (by norm_num)
      (by norm_num)).2.2 3
     (by rw [eucDistance, if_neg (by norm_num : ¬ (3 : ℝ) ≤ 2)])⟩

/-- Claim C9: a subtype with `Distance = 0` and `Weight = 0` contributes no
surface (`calcSubtypeDisturbance` returns `None` and the driver loop only
appends non-`None` results), and a Type none of whose subtypes contributes
a surface is excluded entirely from the composite raster list — no neutral
Type surface is emitted into the Disturbance Compositor's input. -/
theorem claim9_no_effect_subtypes_excluded {ι : Type}
    (trueDist : ι → ℝ) (presence : ι → Option ℝ)
    (typeResults : List (List (Option (ι → ℝ))))
    (hall : ∀ rs ∈ typeResults, ∀ x ∈ rs, x = none) :
    calcSubtypeDisturbance 0 0 trueDist presence = none ∧
    (∀ rs : List (Option (ι → ℝ)), (∀ x ∈ rs, x = none) →
       buildTypeRaster rs = none) ∧
    buildRasterList typeResults = [] := by
  have hbt : ∀ rs : List (Option (ι → ℝ)), (∀ x ∈ rs, x = none) →
      buildTypeRaster rs = none := by
    intro rs hrs
    have hfm : rs.filterMap id = [] := by
      rw [List.filterMap_eq_nil_iff]
      intro a ha
      rw [hrs a ha]
      rfl
    simp only [buildTypeRaster, hfm]
  refine ⟨?_, hbt, ?_⟩
  · rw [calcSubtypeDisturbance, if_neg (lt_irrefl 0), if_neg (lt_irrefl 0)]
  · rw [buildRasterList, List.filterMap_eq_nil_iff]
    intro rs hrs
    exact hbt rs (hall rs hrs)

theorem claim9_witness :
    (∀ rs ∈ ([[none], []] : List (List (Option (Fin 1 → ℝ)))),
       ∀ x ∈ rs, x = none) ∧
    calcSubtypeDisturbance (ι := Fin 1) 0 0 (fun _ => 0) (fun _ => none)
      = none ∧
    buildRasterList ([[none], []] : List (List (Option (Fin 1 → ℝ)))) = [] :=
  ⟨by simp,
   (claim9_no_effect_subtypes_excluded (fun _ : Fin 1 => (0 : ℝ))
      (fun _ => none) [[none], []] (by simp)).1,
   (claim9_no_effect_subtypes_excluded (fun _ : Fin 1 => (0 : ℝ))
      (fun _ => none) [[none], []] (by simp)).2.2⟩

end CoHQT
